import Mathlib

/-!
Verification of the RocketBuilder stage-sizing core against its specification.

The development shallowly embeds the Python sources:
- `constants.py` : the gravity constant `g`;
- `propulsion.py`: the `Fluid` and `Engine` records and the `Engine`
  constructor (`Engine.init` below models `Engine.__init__`);
- `functions.py` : `mass_fractions`, `prop_budget`, `get_margin`,
  `size_vehicle` (its unbounded `while` loop is modelled with an explicit
  fuel parameter: `none` means the loop did not exit within the given
  number of iterations), and the module-level two-stage split sweep;
- `newtonraphson.py`: the inner iteration of `newton_raphson`.

Machine floats are modelled by `ℝ`; Python `None` results by `Option`.
-/

namespace RocketBuilder

/-- Standard gravity from `constants.py` (`g = 9.80665`). -/
noncomputable def g : ℝ := 9.80665

/-- Fluid record from `propulsion.py`: density `rho` (kg per cubic metre) and
reference temperature `T` (K). -/
structure Fluid where
  rho : ℝ
  T : ℝ

/-- Engine record: the attributes an `Engine` object carries after
`Engine.__init__` in `propulsion.py`.  The dry-mass attribute is an
`Option ℝ` because the constructor assigns `self.mass` only in the branch
where no mass argument is supplied; `none` models the absent attribute. -/
structure Engine where
  F : ℝ
  isp : ℝ
  ox : Fluid
  fuel : Fluid
  MR : ℝ
  mass : Option ℝ
  mdot : ℝ

/-- `Engine.__init__(thrust, isp, fuel, ox, MR, mass=None)` from
`propulsion.py`.  When `mass is None` the dry mass is derived from thrust by
the regression `7.81e-4*thrust + 3.37e-5*thrust*sqrt(30) + 59`; otherwise the
branch is skipped and no dry-mass attribute is ever assigned. -/
noncomputable def Engine.init (thrust isp : ℝ) (fuel ox : Fluid) (MR : ℝ)
    (mass : Option ℝ) : Engine :=
  { F := thrust
    isp := isp
    mass := match mass with
      | none => some (7.81e-4 * thrust + 3.37e-5 * thrust * Real.sqrt 30 + 59)
      | some _ => none
    ox := ox
    fuel := fuel
    MR := MR
    mdot := thrust / (isp * g) }

/-- Fluids defined at module level in `propulsion.py`. -/
noncomputable def lox : Fluid := ⟨1140, 88.71⟩

/-- Fluid `rp1` from `propulsion.py`. -/
noncomputable def rp1 : Fluid := ⟨730, 300⟩

/-- Fluid `lh2` from `propulsion.py`. -/
noncomputable def lh2 : Fluid := ⟨41, 20.15⟩

/-- Engine `rl10` from `propulsion.py` (constructed without a mass argument). -/
noncomputable def rl10 : Engine := Engine.init (110.1e3) 465.5 lh2 lox 6.0 none

/-- Engine `rd180` from `propulsion.py`. -/
noncomputable def rd180 : Engine := Engine.init (3.83e6) 338 rp1 lox 2.4 none

/-- `mass_fractions(isp, dv, pi_se)` from `functions.py`.  Computes
`ve = isp*g`, `pi_bo = exp(-dv/ve)`; returns `None` when `pi_se > pi_bo`
(strict comparison in the source), otherwise the tuple
`(pi_bo, pi_prop, pi_pl, pi_se)` with `pi_pl = pi_bo - pi_se` and
`pi_prop = 1 - pi_bo`. -/
noncomputable def mass_fractions (isp dv pi_se : ℝ) : Option (ℝ × ℝ × ℝ × ℝ) :=
  let ve := isp * g
  let pi_bo := Real.exp (-dv / ve)
  if pi_se > pi_bo then none
  else some (pi_bo, 1 - pi_bo, pi_bo - pi_se, pi_se)

lemma g_pos : (0 : ℝ) < g := by norm_num [g]

lemma exp_arg_nonpos {isp dv : ℝ} (hisp : 0 < isp) (hdv : 0 ≤ dv) :
    -dv / (isp * g) ≤ 0 := by
  have h : 0 < isp * g := mul_pos hisp g_pos
  have : 0 ≤ dv / (isp * g) := div_nonneg hdv h.le
  rw [neg_div]
  linarith

lemma pi_bo_le_one {isp dv : ℝ} (hisp : 0 < isp) (hdv : 0 ≤ dv) :
    Real.exp (-dv / (isp * g)) ≤ 1 :=
  Real.exp_le_one_iff.mpr (exp_arg_nonpos hisp hdv)

lemma mass_fractions_of_le {isp dv pi_se : ℝ}
    (h : pi_se ≤ Real.exp (-dv / (isp * g))) :
    mass_fractions isp dv pi_se =
      some (Real.exp (-dv / (isp * g)), 1 - Real.exp (-dv / (isp * g)),
        Real.exp (-dv / (isp * g)) - pi_se, pi_se) := by
  simp only [mass_fractions]
  rw [if_neg (by exact not_lt.mpr h)]

lemma mass_fractions_of_gt {isp dv pi_se : ℝ}
    (h : Real.exp (-dv / (isp * g)) < pi_se) :
    mass_fractions isp dv pi_se = none := by
  simp only [mass_fractions]
  rw [if_pos h]

lemma mass_fractions_none_iff (isp dv pi_se : ℝ) :
    mass_fractions isp dv pi_se = none ↔ Real.exp (-dv / (isp * g)) < pi_se := by
  constructor
  · intro h
    by_contra hc
    rw [mass_fractions_of_le (not_lt.mp hc)] at h
    exact Option.noConfusion h
  · exact mass_fractions_of_gt

/-- Claim C1: for every `isp > 0`, `dv ≥ 0` and structural fraction
`0 < pi_se < exp(-dv/(isp*g))`, `mass_fractions` returns the fraction set
with `pi_bo = exp(-dv/(isp*g))`, `pi_prop = 1 - pi_bo`, `pi_pl = pi_bo - pi_se`,
all three of `pi_bo`, `pi_prop`, `pi_pl` lie in `[0,1]`, and
`pi_se + pi_prop + pi_pl = 1`. -/
theorem mass_fractions_feasible_C1 (isp dv pi_se : ℝ)
    (hisp : 0 < isp) (hdv : 0 ≤ dv) (hse : 0 < pi_se)
    (hlt : pi_se < Real.exp (-dv / (isp * g))) :
    mass_fractions isp dv pi_se =
      some (Real.exp (-dv / (isp * g)), 1 - Real.exp (-dv / (isp * g)),
        Real.exp (-dv / (isp * g)) - pi_se, pi_se) ∧
    (0 ≤ Real.exp (-dv / (isp * g)) ∧ Real.exp (-dv / (isp * g)) ≤ 1) ∧
    (0 ≤ 1 - Real.exp (-dv / (isp * g)) ∧ 1 - Real.exp (-dv / (isp * g)) ≤ 1) ∧
    (0 ≤ Real.exp (-dv / (isp * g)) - pi_se ∧
      Real.exp (-dv / (isp * g)) - pi_se ≤ 1) ∧
    pi_se + (1 - Real.exp (-dv / (isp * g))) +
      (Real.exp (-dv / (isp * g)) - pi_se) = 1 := by
  have hbo1 : Real.exp (-dv / (isp * g)) ≤ 1 := pi_bo_le_one hisp hdv
  have hbo0 : 0 < Real.exp (-dv / (isp * g)) := Real.exp_pos _
  refine ⟨mass_fractions_of_le hlt.le, ⟨hbo0.le, hbo1⟩, ⟨by linarith, by linarith⟩,
    ⟨by linarith, by linarith⟩, by ring⟩

/-- Witness for C1 at `isp = 1`, `dv = 0`, `pi_se = 1/2`. -/
theorem mass_fractions_feasible_C1_witness :
    mass_fractions 1 0 (1/2) ≠ none := by
  have hexp : Real.exp (-(0:ℝ) / ((1:ℝ) * g)) = 1 := by
    rw [neg_zero, zero_div, Real.exp_zero]
  have h := (mass_fractions_feasible_C1 1 0 (1/2) (by norm_num) le_rfl
    (by norm_num) (by rw [hexp]; norm_num)).1
  rw [h]
  simp

/-- Counterexample to claim C3: at `isp = 1 > 0`, `dv = 0 ≥ 0` and
`pi_se = 1 = exp(-dv/(isp*g))` (the equality case explicitly included in the
claim), `mass_fractions` does not return the infeasible result `none`; it
returns the fraction set `(1, 0, 0, 1)`. -/
theorem mass_fractions_boundary_C3_counterexample :
    (0:ℝ) < 1 ∧ (0:ℝ) ≤ 0 ∧ (1:ℝ) ≥ Real.exp (-(0:ℝ) / ((1:ℝ) * g)) ∧
    mass_fractions 1 0 1 = some (1, 0, 0, 1) := by
  have hexp : Real.exp (-(0:ℝ) / ((1:ℝ) * g)) = 1 := by
    rw [neg_zero, zero_div, Real.exp_zero]
  refine ⟨by norm_num, le_rfl, by rw [hexp], ?_⟩
  have h := @mass_fractions_of_le 1 0 1 (by rw [hexp])
  rw [h, hexp]
  norm_num

/-- Claim C3 as amended: `mass_fractions` returns the infeasible result
`none` exactly when `pi_se` is strictly greater than `exp(-dv/(isp*g))`;
in the equality case `pi_se = exp(-dv/(isp*g))` it instead returns the
fraction set with zero payload fraction. -/
theorem mass_fractions_boundary_C3_amended (isp dv pi_se : ℝ) :
    (mass_fractions isp dv pi_se = none ↔
      Real.exp (-dv / (isp * g)) < pi_se) ∧
    mass_fractions isp dv (Real.exp (-dv / (isp * g))) =
      some (Real.exp (-dv / (isp * g)), 1 - Real.exp (-dv / (isp * g)), 0,
        Real.exp (-dv / (isp * g))) := by
  refine ⟨mass_fractions_none_iff isp dv pi_se, ?_⟩
  rw [mass_fractions_of_le le_rfl, sub_self]

/-- `prop_budget(m_prop, engine, f_ullage=0.05, t_startup=1)` from
`functions.py`.  Returns `None` when `f_ullage >= 1` (the `f_ullage < 0`
branch in the source only prints a warning and keeps going); otherwise the
tuple `(m_ox, m_f, v_ox, v_f, startup_losses)` computed from the mixture
ratio split and the startup allowances. -/
noncomputable def prop_budget (m_prop : ℝ) (e : Engine) (f_ullage t_startup : ℝ) :
    Option (ℝ × ℝ × ℝ × ℝ × ℝ) :=
  if f_ullage ≥ 1 then none
  else
    let m_ox_startup := (e.mdot * t_startup * 2 * e.MR) / (e.MR + 1)
    let m_ox := (e.MR * m_prop) / (e.MR + 1)
    let v_ox := ((m_ox + m_ox_startup) / e.ox.rho) / (1 - f_ullage)
    let m_fuel_startup := (e.mdot * t_startup * 2) / (e.MR + 1)
    let m_f := m_prop / (e.MR + 1)
    let v_f := ((m_f + m_fuel_startup) / e.fuel.rho) / (1 - f_ullage)
    some (m_ox, m_f, v_ox, v_f, m_fuel_startup + m_ox_startup)

lemma prop_budget_of_lt {f_ullage : ℝ} (h : f_ullage < 1) (m_prop : ℝ)
    (e : Engine) (t_startup : ℝ) :
    prop_budget m_prop e f_ullage t_startup =
      some ((e.MR * m_prop) / (e.MR + 1), m_prop / (e.MR + 1),
        (((e.MR * m_prop) / (e.MR + 1) +
          (e.mdot * t_startup * 2 * e.MR) / (e.MR + 1)) / e.ox.rho) /
          (1 - f_ullage),
        ((m_prop / (e.MR + 1) + (e.mdot * t_startup * 2) / (e.MR + 1)) /
          e.fuel.rho) / (1 - f_ullage),
        (e.mdot * t_startup * 2) / (e.MR + 1) +
          (e.mdot * t_startup * 2 * e.MR) / (e.MR + 1)) := by
  simp only [prop_budget]
  rw [if_neg (by exact not_le.mpr h)]

/-- Claim C6: for `m_prop ≥ 0`, mixture ratio `MR > 0`, ullage fraction in
`[0,1)` and startup time `t`, `prop_budget` returns
`oxMass = MR*m_prop/(MR+1)`, `fuelMass = m_prop/(MR+1)`, tank volumes
`((mass + startup mass)/density)/(1 - f_ullage)` with the startup masses
`mdot*t*2*MR/(MR+1)` and `mdot*t*2/(MR+1)`, and `startup_losses` equal to the
sum of the two startup masses; with `f_ullage = 0` each volume reduces
exactly to `(mass + startup mass)/density`. -/
theorem prop_budget_C6 (m_prop : ℝ) (e : Engine) (f_ullage t_startup : ℝ)
    (hm : 0 ≤ m_prop) (hMR : 0 < e.MR) (h0 : 0 ≤ f_ullage) (h1 : f_ullage < 1) :
    prop_budget m_prop e f_ullage t_startup =
      some ((e.MR * m_prop) / (e.MR + 1), m_prop / (e.MR + 1),
        (((e.MR * m_prop) / (e.MR + 1) +
          (e.mdot * t_startup * 2 * e.MR) / (e.MR + 1)) / e.ox.rho) /
          (1 - f_ullage),
        ((m_prop / (e.MR + 1) + (e.mdot * t_startup * 2) / (e.MR + 1)) /
          e.fuel.rho) / (1 - f_ullage),
        (e.mdot * t_startup * 2) / (e.MR + 1) +
          (e.mdot * t_startup * 2 * e.MR) / (e.MR + 1)) ∧
    (f_ullage = 0 →
      (((e.MR * m_prop) / (e.MR + 1) +
        (e.mdot * t_startup * 2 * e.MR) / (e.MR + 1)) / e.ox.rho) /
        (1 - f_ullage) =
        ((e.MR * m_prop) / (e.MR + 1) +
          (e.mdot * t_startup * 2 * e.MR) / (e.MR + 1)) / e.ox.rho ∧
      ((m_prop / (e.MR + 1) + (e.mdot * t_startup * 2) / (e.MR + 1)) /
        e.fuel.rho) / (1 - f_ullage) =
        (m_prop / (e.MR + 1) + (e.mdot * t_startup * 2) / (e.MR + 1)) /
          e.fuel.rho) := by
  refine ⟨prop_budget_of_lt h1 m_prop e t_startup, ?_⟩
  rintro rfl
  rw [sub_zero, div_one, div_one]
  exact ⟨rfl, rfl⟩

/-- Witness for C6 at `m_prop = 2`, the `rl10` engine, zero ullage and unit
startup time. -/
theorem prop_budget_C6_witness :
    (prop_budget 2 rl10 0 1).isSome = true := by
  rw [(prop_budget_C6 2 rl10 0 1 (by norm_num) (by norm_num [rl10, Engine.init])
    le_rfl (by norm_num)).1]
  rfl

/-- The repair loop in `get_margin` halves `pi_se` until `mass_fractions`
stops returning `None`; this is the termination measure: some number of
halvings always makes `pi_se` feasible, because `exp` is strictly positive. -/
lemma repair_exists (isp dv pi_se : ℝ) :
    ∃ n : ℕ, pi_se / 2 ^ n ≤ Real.exp (-dv / (isp * g)) := by
  rcases le_or_lt pi_se 0 with h | h
  · exact ⟨0, by
      rw [pow_zero, div_one]
      exact h.trans (Real.exp_pos _).le⟩
  · obtain ⟨n, hn⟩ := exists_pow_lt_of_lt_one
      (div_pos (Real.exp_pos (-dv / (isp * g))) h)
      (by norm_num : (1:ℝ)/2 < 1)
    refine ⟨n, ?_⟩
    have h3 := (lt_div_iff₀ h).mp hn
    have h4 : pi_se / 2 ^ n = ((1:ℝ)/2) ^ n * pi_se := by
      rw [div_pow, one_pow]
      ring
    rw [h4]
    exact h3.le

open Classical in
/-- Number of halvings performed by the repair loop in `get_margin`: the
least `n` with `pi_se / 2^n` feasible (zero when already feasible). -/
noncomputable def repair_steps (isp dv pi_se : ℝ) : ℕ :=
  Nat.find (repair_exists isp dv pi_se)

/-- The structural fraction after the `while fracs is None` halving loop in
`get_margin`. -/
noncomputable def repaired_pi_se (isp dv pi_se : ℝ) : ℝ :=
  pi_se / 2 ^ repair_steps isp dv pi_se

open Classical in
lemma repair_steps_spec (isp dv pi_se : ℝ) :
    pi_se / 2 ^ repair_steps isp dv pi_se ≤ Real.exp (-dv / (isp * g)) := by
  unfold repair_steps
  exact Nat.find_spec (repair_exists isp dv pi_se)

open Classical in
lemma repair_steps_min (isp dv pi_se : ℝ) {k : ℕ}
    (hk : k < repair_steps isp dv pi_se) :
    ¬ pi_se / 2 ^ k ≤ Real.exp (-dv / (isp * g)) := by
  unfold repair_steps at hk
  exact Nat.find_min (repair_exists isp dv pi_se) hk

open Classical in
lemma repair_steps_eq_zero {isp dv pi_se : ℝ}
    (h : pi_se ≤ Real.exp (-dv / (isp * g))) :
    repair_steps isp dv pi_se = 0 := by
  unfold repair_steps
  rw [Nat.find_eq_zero]
  rw [pow_zero, div_one]
  exact h

lemma repaired_pi_se_of_le {isp dv pi_se : ℝ}
    (h : pi_se ≤ Real.exp (-dv / (isp * g))) :
    repaired_pi_se isp dv pi_se = pi_se := by
  rw [repaired_pi_se, repair_steps_eq_zero h, pow_zero, div_one]

lemma repaired_pi_se_feasible (isp dv pi_se : ℝ) :
    repaired_pi_se isp dv pi_se ≤ Real.exp (-dv / (isp * g)) :=
  repair_steps_spec isp dv pi_se

/-- Claim C8: for every `isp > 0`, `dv ≥ 0` and strictly positive trial
fraction, the halving repair loop in `get_margin` terminates: there are
finitely many halvings `n` after which `mass_fractions` is feasible, every
earlier number of halvings was still infeasible, and the repaired fraction is
exactly `pi_se / 2^n`. -/
theorem repair_terminates_C8 (isp dv pi_se : ℝ)
    (hisp : 0 < isp) (hdv : 0 ≤ dv) (hse : 0 < pi_se) :
    ∃ n : ℕ, repaired_pi_se isp dv pi_se = pi_se / 2 ^ n ∧
      mass_fractions isp dv (pi_se / 2 ^ n) ≠ none ∧
      ∀ k < n, mass_fractions isp dv (pi_se / 2 ^ k) = none := by
  refine ⟨repair_steps isp dv pi_se, rfl, ?_, ?_⟩
  · rw [mass_fractions_of_le (repair_steps_spec isp dv pi_se)]
    simp
  · intro k hk
    exact mass_fractions_of_gt (not_le.mp (repair_steps_min isp dv pi_se hk))

/-- Witness for C8 at `isp = 1`, `dv = 0`, `pi_se = 2` (one halving needed,
since the burnout fraction is `exp 0 = 1`). -/
theorem repair_terminates_C8_witness :
    ∃ n : ℕ, repaired_pi_se 1 0 2 = 2 / 2 ^ n ∧
      mass_fractions 1 0 (2 / 2 ^ n) ≠ none ∧
      ∀ k < n, mass_fractions 1 0 (2 / 2 ^ k) = none :=
  repair_terminates_C8 1 0 2 (by norm_num) le_rfl (by norm_num)

/-- `get_margin(engine, mpl, dv, pi_se)` from `functions.py`.  Calls
`mass_fractions`; on `None` repeatedly halves `pi_se` until feasible (the
halving loop is captured by `repaired_pi_se`, and it performs zero halvings
when the first call already succeeds).  Then `m0 = mpl/pi_pl`,
`m_se = m0*pi_se`, `m_prop = pi_prop*m0`, `ne = ceil(1.2*m0*g/engine.F)`,
the propellant budget is taken at the default arguments
`f_ullage = 0.05`, `t_startup = 1`,
`m_act = (v_ox + v_f)*12.16 + losses + engine.mass*ne`, and
`margin = ((m_se - m_act)/m_act * 100) - 15`.  The result is
`(margin, m0, ne)`; reading `engine.mass` on an engine whose dry-mass
attribute was never assigned raises in Python, modelled by `none`. -/
noncomputable def get_margin (e : Engine) (mpl dv pise : ℝ) :
    Option (ℝ × ℝ × ℝ) :=
  match mass_fractions e.isp dv (repaired_pi_se e.isp dv pise) with
  | none => none
  | some (_, pi_prop, pi_pl, pi_se) =>
    let m0 := mpl / pi_pl
    let m_se := m0 * pi_se
    let m_prop := pi_prop * m0
    let ne : ℝ := ((⌈1.2 * m0 * g / e.F⌉ : ℤ) : ℝ)
    match e.mass, prop_budget m_prop e 0.05 1 with
    | some mass, some (_, _, v_ox, v_f, losses) =>
      let m_act := (v_ox + v_f) * 12.16 + losses + mass * ne
      some (((m_se - m_act) / m_act * 100) - 15, m0, ne)
    | _, _ => none

/-- Derived closed form (not a source function): the total mass
`m0 = mpl/pi_pl` that `get_margin` computes for an already feasible trial
fraction `x`, where `pi_pl = exp(-dv/(isp*g)) - x`. -/
noncomputable def margin_m0 (e : Engine) (mpl dv x : ℝ) : ℝ :=
  mpl / (Real.exp (-dv / (e.isp * g)) - x)

/-- Derived closed form: the engine count `ne = ceil(1.2*m0*g/engine.F)`
that `get_margin` computes for a feasible trial fraction. -/
noncomputable def margin_ne (e : Engine) (mpl dv x : ℝ) : ℝ :=
  ((⌈1.2 * margin_m0 e mpl dv x * g / e.F⌉ : ℤ) : ℝ)

/-- Derived closed form: the actual structural mass
`m_act = (v_ox + v_f)*12.16 + losses + mass*ne` that `get_margin` computes
for a feasible trial fraction, with the propellant budget taken at the
default arguments `f_ullage = 0.05`, `t_startup = 1`. -/
noncomputable def margin_m_act (e : Engine) (mass mpl dv x : ℝ) : ℝ :=
  let m_prop := (1 - Real.exp (-dv / (e.isp * g))) * margin_m0 e mpl dv x
  let v_ox := (((e.MR * m_prop) / (e.MR + 1) +
    (e.mdot * 1 * 2 * e.MR) / (e.MR + 1)) / e.ox.rho) / (1 - 0.05)
  let v_f := ((m_prop / (e.MR + 1) +
    (e.mdot * 1 * 2) / (e.MR + 1)) / e.fuel.rho) / (1 - 0.05)
  let losses := (e.mdot * 1 * 2) / (e.MR + 1) +
    (e.mdot * 1 * 2 * e.MR) / (e.MR + 1)
  (v_ox + v_f) * 12.16 + losses + mass * margin_ne e mpl dv x

/-- Derived closed form: the margin `((m_se - m_act)/m_act * 100) - 15`
that `get_margin` computes for a feasible trial fraction. -/
noncomputable def margin_val (e : Engine) (mass mpl dv x : ℝ) : ℝ :=
  ((margin_m0 e mpl dv x * x - margin_m_act e mass mpl dv x) /
    margin_m_act e mass mpl dv x * 100) - 15

/-- Evaluation of `get_margin` when the trial fraction is already feasible
(so the repair loop performs zero halvings) and the engine carries a dry-mass
attribute. -/
lemma get_margin_eq (e : Engine) (mass mpl dv x : ℝ) (hm : e.mass = some mass)
    (hx : x ≤ Real.exp (-dv / (e.isp * g))) :
    get_margin e mpl dv x =
      some (margin_val e mass mpl dv x, margin_m0 e mpl dv x,
        margin_ne e mpl dv x) := by
  rw [get_margin, repaired_pi_se_of_le hx, mass_fractions_of_le hx]
  dsimp only
  rw [hm, prop_budget_of_lt (by norm_num) _ _ _]
  simp only [margin_val, margin_m_act, margin_ne, margin_m0]

/-- Claim C2: for every engine carrying a dry-mass attribute and every
feasible trial fraction `0 < pi_se < pi_bo`, `get_margin` returns
`(margin, m0, ne)` with `m0 = mpl/pi_pl`, `ne = ceil(1.2*m0*g/engine.F)`,
`m_act = 12.16*(v_ox + v_f) + losses + mass*ne` built from the propellant
budget of `m_prop = pi_prop*m0`, and
`margin = (m_se - m_act)/m_act * 100 - 15` with `m_se = m0*pi_se`. -/
theorem get_margin_C2 (e : Engine) (mass mpl dv pi_se : ℝ)
    (hm : e.mass = some mass) (h0 : 0 < pi_se)
    (hlt : pi_se < Real.exp (-dv / (e.isp * g))) :
    ∃ m_ox m_f v_ox v_f losses : ℝ,
      prop_budget ((1 - Real.exp (-dv / (e.isp * g))) *
          (mpl / (Real.exp (-dv / (e.isp * g)) - pi_se))) e 0.05 1 =
        some (m_ox, m_f, v_ox, v_f, losses) ∧
      get_margin e mpl dv pi_se =
        some (((mpl / (Real.exp (-dv / (e.isp * g)) - pi_se) * pi_se -
            (12.16 * (v_ox + v_f) + losses +
              mass * ((⌈1.2 * (mpl / (Real.exp (-dv / (e.isp * g)) - pi_se)) *
                g / e.F⌉ : ℤ) : ℝ))) /
            (12.16 * (v_ox + v_f) + losses +
              mass * ((⌈1.2 * (mpl / (Real.exp (-dv / (e.isp * g)) - pi_se)) *
                g / e.F⌉ : ℤ) : ℝ)) * 100) - 15,
          mpl / (Real.exp (-dv / (e.isp * g)) - pi_se),
          ((⌈1.2 * (mpl / (Real.exp (-dv / (e.isp * g)) - pi_se)) * g /
            e.F⌉ : ℤ) : ℝ)) := by
  refine ⟨_, _, _, _, _, prop_budget_of_lt (by norm_num) _ _ _, ?_⟩
  rw [get_margin_eq e mass mpl dv pi_se hm hlt.le]
  simp only [margin_val, margin_m_act, margin_ne, margin_m0, Option.some.injEq,
    Prod.mk.injEq]
  norm_num
  ring_nf

/-- Witness for C2 at a concrete feasible input: the `rl10` engine,
`mpl = 1000`, `dv = 0`, `pi_se = 1/2`. -/
theorem get_margin_C2_witness :
    (get_margin rl10 1000 0 (1/2)).isSome = true := by
  have hexp : Real.exp (-(0:ℝ) / (rl10.isp * g)) = 1 := by
    rw [neg_zero, zero_div, Real.exp_zero]
  obtain ⟨m_ox, m_f, v_ox, v_f, losses, hpb, hgm⟩ :=
    get_margin_C2 rl10 (7.81e-4 * 110.1e3 + 3.37e-5 * 110.1e3 * Real.sqrt 30 + 59)
      1000 0 (1/2) rfl (by norm_num) (by rw [hexp]; norm_num)
  rw [hgm]
  rfl

/-- Claim C10: at the exact feasibility boundary `pi_se = pi_bo`,
`mass_fractions` reports a feasible split with zero payload fraction (so the
repair loop in `get_margin` is not entered), and `get_margin` then forms
`m0` by dividing the payload mass by that zero payload fraction. -/
theorem get_margin_boundary_C10 (e : Engine) (mass mpl dv : ℝ)
    (hm : e.mass = some mass) :
    mass_fractions e.isp dv (Real.exp (-dv / (e.isp * g))) =
      some (Real.exp (-dv / (e.isp * g)), 1 - Real.exp (-dv / (e.isp * g)), 0,
        Real.exp (-dv / (e.isp * g))) ∧
    repaired_pi_se e.isp dv (Real.exp (-dv / (e.isp * g))) =
      Real.exp (-dv / (e.isp * g)) ∧
    (get_margin e mpl dv (Real.exp (-dv / (e.isp * g)))).map
      (fun r => r.2.1) = some (mpl / 0) := by
  refine ⟨?_, repaired_pi_se_of_le le_rfl, ?_⟩
  · rw [mass_fractions_of_le le_rfl, sub_self]
  · rw [get_margin_eq e mass mpl dv _ hm le_rfl]
    simp only [Option.map_some', margin_m0, sub_self]

/-- Witness for C10 at the `rl10` engine, `mpl = 1000`, `dv = 0`. -/
theorem get_margin_boundary_C10_witness :
    (get_margin rl10 1000 0 (Real.exp (-(0:ℝ) / (rl10.isp * g)))).map
      (fun r => r.2.1) = some ((1000:ℝ) / 0) :=
  (get_margin_boundary_C10 rl10
    (7.81e-4 * 110.1e3 + 3.37e-5 * 110.1e3 * Real.sqrt 30 + 59) 1000 0 rfl).2.2

/-- Claim C9: `Engine.__init__` assigns the dry-mass attribute only in the
branch where no mass argument is supplied (deriving it from thrust by the
regression); an engine constructed with a caller-supplied dry mass therefore
has no dry-mass attribute, and every `get_margin` call on such an engine
fails when it reads `engine.mass`. -/
theorem engine_init_C9 (thrust isp : ℝ) (fluidA fluidB : Fluid) (MR m : ℝ) :
    (Engine.init thrust isp fluidA fluidB MR (some m)).mass = none ∧
    (∀ mpl dv x : ℝ,
      get_margin (Engine.init thrust isp fluidA fluidB MR (some m)) mpl dv x =
        none) ∧
    (Engine.init thrust isp fluidA fluidB MR none).mass =
      some (7.81e-4 * thrust + 3.37e-5 * thrust * Real.sqrt 30 + 59) := by
  refine ⟨rfl, ?_, rfl⟩
  intro mpl dv x
  rw [get_margin,
    mass_fractions_of_le (repaired_pi_se_feasible _ dv x)]
  dsimp only
  rw [prop_budget_of_lt (by norm_num) _ _ _,
    show (Engine.init thrust isp fluidA fluidB MR (some m)).mass = none from rfl]

open Classical in
/-- The `while abs(change) >= 1e-6` loop of `size_vehicle` in `functions.py`,
with an explicit iteration budget (the source loop is unbounded; `none` means
the loop did not exit within the budget, and the initial `change = 1` makes
the body run at least once).  Each iteration perturbs by `dx = -0.001*x1`,
evaluates `get_margin` at `x1` and `x1 + dx`, updates
`x1 <- -m1/m + x1` with the secant slope `m`, and exits when
`|change| < 1e-6`.  On exit it returns the converged iterate together with
the iterate at the start of the final iteration (whose in-loop `get_margin`
result the source keeps in the variable `margin`). -/
noncomputable def sizeLoop (e : Engine) (mpl dv : ℝ) : ℕ → ℝ → Option (ℝ × ℝ)
  | 0, _ => none
  | (n+1), x1 =>
    match get_margin e mpl dv x1, get_margin e mpl dv (x1 + -0.001 * x1) with
    | some mg1, some mg2 =>
      let dx := -0.001 * x1
      let m := (mg2.1 - mg1.1) / dx
      let x1n := -mg1.1 / m + x1
      if |x1n - x1| < 1e-6 then some (x1n, x1) else sizeLoop e mpl dv n x1n
    | _, _ => none

/-- `size_vehicle(mpl, dv, engine)` from `functions.py`: runs the iteration
from `x1 = 0.01` and returns `(get_margin(engine, mpl, dv, x1)[1], margin[2])`
- the total mass from a fresh `get_margin` call at the converged iterate, and
the engine count from the loop variable `margin`, the in-loop `get_margin`
result at the iterate from the start of the final iteration. -/
noncomputable def size_vehicle (e : Engine) (mpl dv : ℝ) (budget : ℕ) :
    Option (ℝ × ℝ) :=
  (sizeLoop e mpl dv budget 0.01).bind fun p =>
    (get_margin e mpl dv p.1).bind fun mgf =>
      (get_margin e mpl dv p.2).map fun mgl => (mgf.2.1, mgl.2.2)

lemma sizeLoop_succ (e : Engine) (mpl dv : ℝ) (n : ℕ) (x1 : ℝ) :
    sizeLoop e mpl dv (n+1) x1 =
      match get_margin e mpl dv x1, get_margin e mpl dv (x1 + -0.001 * x1) with
      | some mg1, some mg2 =>
        let dx := -0.001 * x1
        let m := (mg2.1 - mg1.1) / dx
        let x1n := -mg1.1 / m + x1
        if |x1n - x1| < 1e-6 then some (x1n, x1) else sizeLoop e mpl dv n x1n
      | _, _ => none := rfl

/-- A concrete engine record used to exercise `get_margin` and
`size_vehicle` at exactly representable numbers: a Python engine object
whose attributes are set to `F = 11767.98`, `MR = 1`, both propellant
densities `2432`, dry mass `8`, and `mdot = 3041520/4392809`
(consistently, `isp = F/(mdot*g) = 5271370800/3041520`). -/
noncomputable def e_cex : Engine :=
  { F := 11767.98
    isp := 5271370800 / 3041520
    ox := ⟨2432, 300⟩
    fuel := ⟨2432, 300⟩
    MR := 1
    mass := some 8
    mdot := 3041520 / 4392809 }

lemma exp_zero_arg (isp : ℝ) : Real.exp (-(0:ℝ) / (isp * g)) = 1 := by
  rw [neg_zero, zero_div, Real.exp_zero]

lemma get_margin_cex (x : ℝ) (hx : x ≤ 1) :
    get_margin e_cex 1980 0 x =
      some (((1980 / (1 - x) * x -
          (32016/22999 + 8 * ((⌈(1980 / (1 - x)) / 1000⌉ : ℤ) : ℝ))) /
          (32016/22999 + 8 * ((⌈(1980 / (1 - x)) / 1000⌉ : ℤ) : ℝ)) * 100) - 15,
        1980 / (1 - x),
        ((⌈(1980 / (1 - x)) / 1000⌉ : ℤ) : ℝ)) := by
  have hm0 : margin_m0 e_cex 1980 0 x = 1980 / (1 - x) := by
    rw [margin_m0, exp_zero_arg]
  have hne : margin_ne e_cex 1980 0 x = ((⌈(1980 / (1 - x)) / 1000⌉ : ℤ) : ℝ) := by
    rw [margin_ne, hm0]
    congr 2
    show 1.2 * (1980 / (1 - x)) * g / e_cex.F = 1980 / (1 - x) / 1000
    simp only [g, e_cex]
    ring
  have hact : margin_m_act e_cex 8 1980 0 x =
      32016/22999 + 8 * margin_ne e_cex 1980 0 x := by
    simp only [margin_m_act, hm0, exp_zero_arg, e_cex]
    norm_num
  rw [get_margin_eq e_cex 8 1980 0 x rfl (by rw [exp_zero_arg]; exact hx),
    margin_val, hact, hne, hm0]

lemma gm_cex_x1 : get_margin e_cex 1980 0 0.01 = some (-0.005, 2000, 2) := by
  rw [get_margin_cex 0.01 (by norm_num)]
  have h0 : (1980:ℝ) / (1 - 0.01) = 2000 := by norm_num
  rw [h0]
  have hc : (⌈(2000:ℝ) / 1000⌉ : ℤ) = 2 := by
    rw [Int.ceil_eq_iff]
    constructor <;> norm_num
  rw [hc]
  norm_num

lemma gm_cex_x2 : get_margin e_cex 1980 0 0.00999 =
    some (-2398901/19800200, 198000000/99001, 2) := by
  rw [get_margin_cex 0.00999 (by norm_num)]
  have h0 : (1980:ℝ) / (1 - 0.00999) = 198000000/99001 := by norm_num
  rw [h0]
  have hc : (⌈(198000000:ℝ)/99001 / 1000⌉ : ℤ) = 2 := by
    rw [Int.ceil_eq_iff]
    constructor <;> norm_num
  rw [hc]
  norm_num

lemma sizeLoop_cex :
    sizeLoop e_cex 1980 0 1 0.01 = some (2299999001/229990000000, 0.01) := by
  rw [show (1:ℕ) = 0 + 1 from rfl, sizeLoop_succ, gm_cex_x1,
    show (0.01:ℝ) + -0.001 * 0.01 = 0.00999 by norm_num, gm_cex_x2]
  dsimp only
  rw [show -(-0.005:ℝ) / (((-2398901/19800200:ℝ) - -0.005) / (-0.001 * 0.01)) +
      0.01 = 2299999001/229990000000 by norm_num]
  rw [if_pos (by rw [abs_of_nonneg (by norm_num)]; norm_num)]

lemma gm_cex_xc_ne :
    (get_margin e_cex 1980 0 (2299999001/229990000000)).map
      (fun r => r.2.2) = some 3 := by
  rw [get_margin_cex _ (by norm_num), Option.map_some']
  have hc : (⌈(1980:ℝ) / (1 - 2299999001/229990000000) / 1000⌉ : ℤ) = 3 := by
    rw [Int.ceil_eq_iff]
    constructor <;> norm_num
  rw [hc]
  norm_num

lemma size_vehicle_cex_ne :
    (size_vehicle e_cex 1980 0 1).map (fun r => r.2) = some 2 := by
  rw [size_vehicle, sizeLoop_cex]
  show ((get_margin e_cex 1980 0 (2299999001/229990000000)).bind fun mgf =>
    (get_margin e_cex 1980 0 0.01).map fun mgl => (mgf.2.1, mgl.2.2)).map
      (fun r => r.2) = some 2
  rw [get_margin_cex _ (by norm_num), gm_cex_x1]
  rfl

/-- Counterexample to claim C4: for the engine `e_cex`, payload `1980` and
`dv = 0`, the iteration of `size_vehicle` converges (in one step, with a
budget of one iteration) to the fraction `2299999001/229990000000`, where
`get_margin` yields the engine count `3`; yet `size_vehicle` returns engine
count `2`, taken from the in-loop `get_margin` call at the pre-update
iterate `0.01`, not from a final call at the converged fraction. -/
theorem size_vehicle_C4_counterexample :
    sizeLoop e_cex 1980 0 1 0.01 = some (2299999001/229990000000, 0.01) ∧
    (get_margin e_cex 1980 0 (2299999001/229990000000)).map
      (fun r => r.2.2) = some 3 ∧
    (size_vehicle e_cex 1980 0 1).map (fun r => r.2) = some 2 ∧
    (3:ℝ) ≠ 2 :=
  ⟨sizeLoop_cex, gm_cex_xc_ne, size_vehicle_cex_ne, by norm_num⟩

/-- Claim C4 as amended: on convergence of the iteration from `x0 = 0.01`,
`size_vehicle` returns the total mass `m0` from a fresh final `get_margin`
call at the converged fraction, but the engine count `ne` from the in-loop
`get_margin` call at the iterate from the start of the final iteration
(which may differ from the engine count at the converged fraction). -/
theorem size_vehicle_C4_amended (e : Engine) (mpl dv : ℝ) (budget : ℕ)
    (xc xp : ℝ) (h : sizeLoop e mpl dv budget 0.01 = some (xc, xp)) :
    size_vehicle e mpl dv budget =
      (get_margin e mpl dv xc).bind fun mgf =>
        (get_margin e mpl dv xp).map fun mgl => (mgf.2.1, mgl.2.2) := by
  rw [size_vehicle, h]
  rfl

/-- Witness for the amended C4 at the concrete convergent run on `e_cex`. -/
theorem size_vehicle_C4_amended_witness :
    size_vehicle e_cex 1980 0 1 =
      (get_margin e_cex 1980 0 (2299999001/229990000000)).bind fun mgf =>
        (get_margin e_cex 1980 0 0.01).map fun mgl => (mgf.2.1, mgl.2.2) :=
  size_vehicle_C4_amended e_cex 1980 0 1 (2299999001/229990000000) 0.01
    sizeLoop_cex

/-- The finite-difference slope estimate of one iteration of the inner loop
of `newton_raphson` in `newtonraphson.py`: `m = (y2 - y1)/dx` with
`dx = -0.0001*x1`, after the source has normalized tuple-valued objective
results to their first (scalar) component. -/
noncomputable def nr_slope (f : ℝ → ℝ) (x1 : ℝ) : ℝ :=
  (f (x1 + -0.0001 * x1) - f x1) / (-0.0001 * x1)

/-- The iterate update `x1 <- (-y1/m) + x1` of `newton_raphson`. -/
noncomputable def nr_update (f : ℝ → ℝ) (x1 : ℝ) : ℝ :=
  -(f x1) / nr_slope f x1 + x1

open Classical in
/-- The inner `while abs(change) >= 1e-6` loop of `newton_raphson` in
`newtonraphson.py`, for one initial guess, with an explicit iteration
budget (`none` means the loop did not exit within the budget).  Each
iteration updates the iterate; then the source checks `if m <= 1e-3` and
breaks with a printed did-not-converge message, keeping the updated iterate
as a best-effort result (flag `true` here); otherwise the loop exits
normally when `|change| < 1e-6` (flag `false`). -/
noncomputable def nr_loop (f : ℝ → ℝ) : ℕ → ℝ → Option (ℝ × Bool)
  | 0, _ => none
  | (n+1), x1 =>
    let x1n := nr_update f x1
    if nr_slope f x1 ≤ 1e-3 then some (x1n, true)
    else if |x1n - x1| < 1e-6 then some (x1n, false)
    else nr_loop f n x1n

open Classical in
lemma nr_loop_succ (f : ℝ → ℝ) (n : ℕ) (x1 : ℝ) :
    nr_loop f (n+1) x1 =
      if nr_slope f x1 ≤ 1e-3 then some (nr_update f x1, true)
      else if |nr_update f x1 - x1| < 1e-6 then some (nr_update f x1, false)
      else nr_loop f n (nr_update f x1) := rfl

/-- Counterexample to claim C7: on the objective `f x = -x` at `x1 = 1` the
slope estimate is `-1`, whose magnitude is far above the `1e-3` threshold,
yet the loop abandons the iteration at once, flagging non-convergence: the
break condition in the source is the signed comparison `m <= 1e-3`, not a
comparison of the magnitude `|m|`. -/
theorem newton_raphson_C7_counterexample :
    nr_slope (fun x => -x) 1 = -1 ∧
    ¬ |nr_slope (fun x => -x) 1| ≤ 1e-3 ∧
    nr_loop (fun x => -x) 1 1 = some (0, true) := by
  have hs : nr_slope (fun x => -x) 1 = -1 := by
    rw [nr_slope]
    norm_num
  have hu : nr_update (fun x => -x) 1 = 0 := by
    rw [nr_update, hs]
    norm_num
  refine ⟨hs, by rw [hs]; norm_num, ?_⟩
  rw [show (1:ℕ) = 0 + 1 from rfl, nr_loop_succ, if_pos (by rw [hs]; norm_num),
    hu]

open Classical in
/-- Claim C7 as amended: one iteration of the `newton_raphson` loop abandons
the iteration early, flagging non-convergence and reporting the updated
iterate as a best-effort result, exactly when the signed slope estimate
satisfies `m <= 1e-3`; so flat and steeply negative slope estimates trigger
the early stop, while slope estimates above `1e-3`, however large, never
do and the loop proceeds to the normal convergence test. -/
theorem newton_raphson_C7_amended (f : ℝ → ℝ) (n : ℕ) (x1 : ℝ) :
    (nr_slope f x1 ≤ 1e-3 →
      nr_loop f (n+1) x1 = some (nr_update f x1, true)) ∧
    (¬ nr_slope f x1 ≤ 1e-3 →
      nr_loop f (n+1) x1 =
        if |nr_update f x1 - x1| < 1e-6 then some (nr_update f x1, false)
        else nr_loop f n (nr_update f x1)) := by
  constructor <;> intro h
  · rw [nr_loop_succ, if_pos h]
  · rw [nr_loop_succ, if_neg h]

/-- Witness for the amended C7: the early stop fires on `f x = -x` at
`x1 = 1` even though the slope magnitude there is `1`. -/
theorem newton_raphson_C7_amended_witness :
    nr_loop (fun x => -x) (0+1) 1 = some (nr_update (fun x => -x) 1, true) :=
  (newton_raphson_C7_amended (fun x => -x) 0 1).1
    (by rw [nr_slope]; norm_num)

/-- The swept split fractions `fs = np.linspace(0.1, 0.9, 100)` of the
module-level loop in `functions.py`. -/
noncomputable def fs (i : ℕ) : ℝ := 0.1 + 0.8 * i / 99

/-- Trace of one pass of the module-level two-stage sweep loop in
`functions.py`: the delta-v and payload arguments of the two `size_vehicle`
calls, and the recorded outputs.  Following the claim terminology, the
"upper" stage is the one sized with the fixed `1000` payload (the source
variable `m2`), the "lower" stage the one whose payload is the upper result
(`m1`). -/
structure SweepTrace where
  upperDv : ℝ
  upperPayload : ℝ
  lowerDv : ℝ
  lowerPayload : Option ℝ
  recorded : Option (ℝ × ℝ)

/-- One pass of the sweep loop body for split fraction `f`: in the source,
`v1 = 9000*f`, `v2 = 9000*(1-f)`, `m2 = size_vehicle(1000, v2, rl10)`,
`m1 = size_vehicle(m2[0], v1, rl10)`, recording `(m1[0], m1[1] + m2[1])`. -/
noncomputable def sweep_step (budget : ℕ) (f : ℝ) : SweepTrace :=
  let v1 := 9000 * f
  let v2 := 9000 * (1 - f)
  let m2 := size_vehicle rl10 1000 v2 budget
  { upperDv := v2
    upperPayload := 1000
    lowerDv := v1
    lowerPayload := m2.map fun r => r.1
    recorded := m2.bind fun r2 =>
      (size_vehicle rl10 r2.1 v1 budget).map fun r1 => (r1.1, r1.2 + r2.2) }

/-- Counterexample to claim C5: at the first swept fraction `f = 0.1`, the
stage sized with the fixed payload (the upper stage) receives delta-v
`9000*(1-f) = 8100`, not `f*V_total = 900` as the claim states. -/
theorem sweep_C5_counterexample :
    fs 0 = 0.1 ∧ (sweep_step 0 (fs 0)).upperDv = 8100 ∧
    ¬ (sweep_step 0 (fs 0)).upperDv = fs 0 * 9000 := by
  have h : fs 0 = 0.1 := by
    rw [fs]
    norm_num
  refine ⟨h, ?_, ?_⟩ <;> rw [h] <;> simp only [sweep_step] <;> norm_num

/-- Claim C5 as amended: for every swept fraction `f`, the upper stage (the
one sized with the fixed `1000` payload) is sized with delta-v
`v2 = (1-f)*V_total`, the lower stage with `v1 = f*V_total`, and the lower
stage's payload equals the upper stage's converged total mass `m0`. -/
theorem sweep_C5_amended (budget : ℕ) (i : ℕ) (hi : i < 100) :
    (sweep_step budget (fs i)).upperDv = 9000 * (1 - fs i) ∧
    (sweep_step budget (fs i)).lowerDv = 9000 * fs i ∧
    (sweep_step budget (fs i)).upperPayload = 1000 ∧
    (sweep_step budget (fs i)).lowerPayload =
      (size_vehicle rl10 1000 (9000 * (1 - fs i)) budget).map fun r => r.1 :=
  ⟨rfl, rfl, rfl, rfl⟩

/-- Witness for the amended C5 at the first swept fraction. -/
theorem sweep_C5_amended_witness :
    (sweep_step 0 (fs 0)).upperDv = 9000 * (1 - fs 0) ∧
    (sweep_step 0 (fs 0)).lowerDv = 9000 * fs 0 ∧
    (sweep_step 0 (fs 0)).upperPayload = 1000 ∧
    (sweep_step 0 (fs 0)).lowerPayload =
      (size_vehicle rl10 1000 (9000 * (1 - fs 0)) 0).map fun r => r.1 :=
  sweep_C5_amended 0 0 (by norm_num)

end RocketBuilder
